import Mathlib

/-!
Shallow embedding of the `jupyterlab_ai_assistant` Ollama adapter
(`ollama_client.py` and `handlers.py`): JSON-like Python values, the input
sanitizer, response pagination, the message-to-prompt formatter, response
normalization, the chat-completion control flow and the model-listing retry
loop, together with theorems about the behaviour of these operations.
-/

/-- JSON-like Python value (the payloads handled by the adapter). -/
inductive JVal where
  | null
  | bool (b : Bool)
  | num (n : Int)
  | str (s : List Char)
  | arr (items : List JVal)
  | dict (fields : List (String × JVal))
deriving Repr

/-- Python `d.get(k)` on a dict given as an ordered association list. -/
def jGet (fields : List (String × JVal)) (k : String) : Option JVal :=
  (fields.find? (fun kv => kv.1 == k)).map (fun kv => kv.2)

/-- Python `d[k] = v`: replace the value of an existing key in place, else append. -/
def dictSet : List (String × JVal) → String → JVal → List (String × JVal)
  | [], k, v => [(k, v)]
  | (k', v') :: rest, k, v =>
    if k' == k then (k', v) :: rest else (k', v') :: dictSet rest k v

/-- Whether the value is a Python dict. -/
def JVal.isDict : JVal → Bool
  | .dict _ => true
  | _ => false

/-- Python truthiness of a JSON-like value. -/
def pyTruthy : JVal → Bool
  | .null => false
  | .bool b => b
  | .num n => n != 0
  | .str s => !s.isEmpty
  | .arr l => !l.isEmpty
  | .dict d => !d.isEmpty

mutual
/-- Python `repr` of a JSON-like value (container elements are shown with `repr`). -/
def pyRepr : JVal → List Char
  | .null => "None".data
  | .bool true => "True".data
  | .bool false => "False".data
  | .num n => (toString n).data
  | .str s => '\x27' :: (s ++ ['\x27'])
  | .arr items => '[' :: (pyReprItems items ++ [']'])
  | .dict fields => '\x7b' :: (pyReprFields fields ++ ['\x7d'])

/-- Comma-separated `repr`s of the items of a Python list. -/
def pyReprItems : List JVal → List Char
  | [] => []
  | [v] => pyRepr v
  | v :: rest => pyRepr v ++ (", ".data ++ pyReprItems rest)

/-- Comma-separated `key: value` renderings of the fields of a Python dict. -/
def pyReprFields : List (String × JVal) → List Char
  | [] => []
  | [(k, v)] => ('\x27' :: (k.data ++ ['\x27'])) ++ (": ".data ++ pyRepr v)
  | (k, v) :: rest =>
    ('\x27' :: (k.data ++ ['\x27'])) ++
      (": ".data ++ (pyRepr v ++ (", ".data ++ pyReprFields rest)))
end

/-- Python `str` of a JSON-like value: a string is itself, other values render
through `repr`. -/
def pyStr (v : JVal) : List Char :=
  match v with
  | .str s => s
  | v => pyRepr v

/-- Look up `message.content` in a response value, when present. -/
def messageContent (v : JVal) : Option JVal :=
  match v with
  | .dict fields =>
    match jGet fields "message" with
    | some (.dict mfields) => jGet mfields "content"
    | _ => none
  | _ => none

/-- Python `str.strip()`: remove leading and trailing whitespace. -/
def pyStrip (s : List Char) : List Char :=
  ((s.dropWhile Char.isWhitespace).reverse.dropWhile Char.isWhitespace).reverse

/-- Python `str.capitalize()`: first character upper-cased, the rest lower-cased. -/
def pyCapitalize : List Char → List Char
  | [] => []
  | c :: rest => c.toUpper :: rest.map Char.toLower

/-- Python `str.lower()`. -/
def pyLower (s : List Char) : List Char := s.map Char.toLower

/-- Python `s.endswith(t)`. -/
def endsWithL (s t : List Char) : Bool := t.isSuffixOf s

/-- Whether `sub` occurs in `s` starting at index `i`. -/
def matchesAt (s sub : List Char) (i : Nat) : Bool :=
  (s.drop i).take sub.length == sub

/-- Index of the first occurrence of `sub` in `s`. -/
def subPos (s sub : List Char) : Option Nat :=
  (List.range (s.length + 1)).find? (fun i => matchesAt s sub i)

/-- Whether `sub` occurs somewhere in `s` (Python `sub in s`). -/
def containsSub (s sub : List Char) : Bool := (subPos s sub).isSome

/-- Python `s.rfind(sub, start, stop)`: highest index `i` with `start ≤ i`,
`i + len(sub) ≤ stop` and a match of `sub` at `i`; `none` stands for `-1`. -/
def pyRfind (s sub : List Char) (start stop : Nat) : Option Nat :=
  ((List.range stop).filter
    (fun i => decide (start ≤ i) && (decide (i + sub.length ≤ stop) && matchesAt s sub i))).getLast?

/-- Per-character expansion of Python `html.escape` with `quote=True` (the
source replaces `&` first, so a character-wise map is equivalent to its
sequence of `str.replace` calls). -/
def escapeChar (c : Char) : List Char :=
  if c = '&' then "&amp;".data
  else if c = '<' then "&lt;".data
  else if c = '>' then "&gt;".data
  else if c = '"' then "&quot;".data
  else if c = '\x27' then "&#x27;".data
  else [c]

/-- Python `html.escape(s, quote=True)`. -/
def htmlEscape (s : List Char) : List Char := (s.map escapeChar).flatten

/-- Limit on message length (`MAX_MESSAGE_LENGTH` in `handlers.py`, line 18). -/
def MAX_MESSAGE_LENGTH : Nat := 32000

mutual
/-- Sanitization of one value inside `validate_input` (`handlers.py` lines
83-100): strings longer than `MAX_MESSAGE_LENGTH` are truncated and then
HTML-escaped, lists and dicts are recursed into, every other value is kept. -/
def sanitizeValue : JVal → JVal
  | .str s =>
    .str (htmlEscape (if MAX_MESSAGE_LENGTH < s.length then s.take MAX_MESSAGE_LENGTH else s))
  | .arr items => .arr (sanitizeList items)
  | .dict fields => .dict (sanitizeDict fields)
  | v => v

/-- List comprehension in `validate_input` (line 96): dict items are sanitized
recursively, all other items (strings included) are kept as they are. -/
def sanitizeList : List JVal → List JVal
  | [] => []
  | .dict fields :: rest => .dict (sanitizeDict fields) :: sanitizeList rest
  | item :: rest => item :: sanitizeList rest

/-- Field-wise sanitization loop of `validate_input` (lines 83-100). -/
def sanitizeDict : List (String × JVal) → List (String × JVal)
  | [] => []
  | (k, v) :: rest => (k, sanitizeValue v) :: sanitizeDict rest
end

/-- The `validate_input` handler method (`handlers.py` lines 62-102): reject a
missing required field (`ValueError`, modelled as `Except.error` naming the
field), then sanitize the data field-wise. -/
def validate_input (data : List (String × JVal)) (required_fields : List String) :
    Except String (List (String × JVal)) :=
  match required_fields.find? (fun f => (jGet data f).isNone) with
  | some f => .error f
  | none => .ok (sanitizeDict data)

/-- Default response chunk size (`MAX_RESPONSE_CHUNK_SIZE` in `handlers.py`). -/
def MAX_RESPONSE_CHUNK_SIZE : Nat := 4096

/-- End position of the next chunk (`handlers.py` lines 130-141): the hard
boundary at `current_pos + chunk_size` (clamped to the text length), moved
back to a paragraph break, or failing that to a sentence break, when one lies
strictly past the midpoint of the chunk. -/
def chunkEnd (content : List Char) (chunk_size current_pos : Nat) : Nat :=
  let end_pos := min (current_pos + chunk_size) content.length
  if end_pos < content.length then
    match pyRfind content "\n\n".data current_pos end_pos with
    | some paragraph_break =>
      if current_pos + chunk_size / 2 < paragraph_break then paragraph_break + 2
      else
        match pyRfind content ". ".data current_pos end_pos with
        | some sentence_break =>
          if current_pos + chunk_size / 2 < sentence_break then sentence_break + 2 else end_pos
        | none => end_pos
    | none =>
      match pyRfind content ". ".data current_pos end_pos with
      | some sentence_break =>
        if current_pos + chunk_size / 2 < sentence_break then sentence_break + 2 else end_pos
      | none => end_pos
  else end_pos

/-- The `while current_pos < len(content)` loop of `paginate_response`
(`handlers.py` lines 129-144), with explicit fuel: each iteration advances
`current_pos` by at least one character when `chunk_size ≥ 1`, so
`content.length` fuel always suffices. -/
def paginateChunks (content : List Char) (chunk_size : Nat) :
    Nat → Nat → List (List Char)
  | 0, _ => []
  | fuel + 1, current_pos =>
    if current_pos < content.length then
      let end_pos := chunkEnd content chunk_size current_pos
      (content.drop current_pos).take (end_pos - current_pos) ::
        paginateChunks content chunk_size fuel end_pos
    else []

/-- The `paginate_response` method (`handlers.py` lines 104-146). The
configured chunk size is the `chunk_size` argument and the
`enable_response_pagination` configuration flag is `enable_pagination`. -/
def paginate_response (enable_pagination : Bool) (content : List Char)
    (chunk_size : Nat) : List (List Char) :=
  if !enable_pagination then [content]
  else if content.length ≤ chunk_size then [content]
  else paginateChunks content chunk_size content.length 0

/-- One chat message: its role and content. -/
structure ChatMsg where
  role : List Char
  content : List Char
deriving DecidableEq, Repr

/-- Role comparison key in `_format_generate_payload` (`ollama_client.py`
line 199): the role is capitalized and then compared through `lower()`. -/
def pyRoleLower (role : List Char) : List Char := pyLower (pyCapitalize role)

/-- Loop body of `_format_generate_payload` (`ollama_client.py` lines
198-213): how one message extends `formatted_lines`.  A system message is
recognized only when `formatted_lines` is still empty; a user message opens a
new turn when the previous line closed one, else continues the current line
block; an assistant message closes its turn; any other role is dropped. -/
def formatStep (acc : List (List Char)) (m : ChatMsg) : List (List Char) :=
  let role := pyRoleLower m.role
  if role == "system".data && acc.isEmpty then
    acc ++ ["<s>[INST] <<SYS>>\n".data ++ (m.content ++ "\n<</SYS>>\n\n".data)]
  else if role == "user".data then
    if !acc.isEmpty && endsWithL ((acc.getLast?).getD []) "[/INST]".data then
      acc ++ ["<s>[INST] ".data ++ (m.content ++ " [/INST]".data)]
    else
      acc ++ [m.content ++ " [/INST]".data]
  else if role == "assistant".data then
    acc ++ [m.content ++ " </s>".data]
  else acc

/-- Message loop of `_format_generate_payload` (`ollama_client.py` lines
196-213), accumulating `formatted_lines`. -/
def formatLinesAux : List ChatMsg → List (List Char) → List (List Char)
  | [], acc => acc
  | m :: rest, acc => formatLinesAux rest (formatStep acc m)

/-- Closing-marker fix-up of `_format_generate_payload` (`ollama_client.py`
lines 215-217): when the last line closes neither an instruction nor an
assistant turn, the instruction-closing marker is appended to it. -/
def fixupLines (lines : List (List Char)) : List (List Char) :=
  match lines.getLast? with
  | some lastLine =>
    if !endsWithL lastLine "[/INST]".data && !endsWithL lastLine "</s>".data then
      lines.dropLast ++ [lastLine ++ " [/INST]".data]
    else lines
  | none => lines

/-- The prompt built by `_format_generate_payload` (`ollama_client.py` lines
186-221); the method returns it as the `"prompt"` field of the generate
payload. -/
def format_generate_payload (messages : List ChatMsg) : List Char :=
  (fixupLines (formatLinesAux messages [])).flatten

/-- Normalization of a non-streaming modern-endpoint (`/api/chat`) response
body (`ollama_client.py` lines 299-313): a non-dict result or one without a
`message` key is wrapped (stringified when truthy, else the empty string); a
`message` that is not a dict or lacks a `content` key is replaced likewise;
otherwise the result is returned unchanged. -/
def normalizeChat (result : JVal) : JVal :=
  match result with
  | .dict fields =>
    match jGet fields "message" with
    | some message =>
      match message with
      | .dict mfields =>
        if (jGet mfields "content").isSome then .dict fields
        else
          .dict (dictSet fields "message"
            (.dict [("content", .str (if pyTruthy message then pyStr message else []))]))
      | _ =>
        .dict (dictSet fields "message"
          (.dict [("content", .str (if pyTruthy message then pyStr message else []))]))
    | none =>
      .dict [("message", .dict [("content",
        .str (if pyTruthy result then pyStr result else []))])]
  | _ =>
    .dict [("message", .dict [("content",
      .str (if pyTruthy result then pyStr result else []))])]

/-- Normalization of a non-streaming legacy-endpoint (`/api/generate`)
response body (`ollama_client.py` lines 376-389); the decoded body is a JSON
object, on which the source calls `.get`. -/
def normalizeGenerate (fields : List (String × JVal)) : JVal :=
  let response_text := (jGet fields "response").getD (.str [])
  let response_text := match response_text with
    | .null => .str []
    | v => v
  .dict [("message", .dict [("content", response_text)])]

/-- Conversion of one streaming legacy-endpoint chunk to chat format
(`ollama_client.py` lines 357-362). -/
def normalizeGenChunk (chunk : List (String × JVal)) : JVal :=
  .dict [("message", .dict [("content", (jGet chunk "response").getD (.str []))]),
         ("done", (jGet chunk "done").getD (.bool false))]

/-- Streaming loop over modern-endpoint lines (`ollama_client.py` lines
282-294): decoded chunks are yielded unchanged, lines failing JSON decoding
(`none`) are skipped, and the loop stops after a chunk whose `done` field is
truthy. -/
def streamChatLoop : List (Option (List (String × JVal))) → List JVal
  | [] => []
  | none :: rest => streamChatLoop rest
  | some chunk :: rest =>
    if pyTruthy ((jGet chunk "done").getD (.bool false)) then [.dict chunk]
    else .dict chunk :: streamChatLoop rest

/-- Streaming loop over legacy-endpoint lines (`ollama_client.py` lines
354-371): each decoded chunk is converted to chat format before being
yielded. -/
def streamGenLoop : List (Option (List (String × JVal))) → List JVal
  | [] => []
  | none :: rest => streamGenLoop rest
  | some chunk :: rest =>
    if pyTruthy ((jGet chunk "done").getD (.bool false)) then [normalizeGenChunk chunk]
    else normalizeGenChunk chunk :: streamGenLoop rest

/-- HTTP requests the client can issue, as recorded in a per-call trace:
the `_verify_connection` requests, the `HEAD /api/chat` capability probe,
and the completion requests `POST /api/chat` and `POST /api/generate`. -/
inductive Endpoint where
  | verifyReq
  | headChat
  | postChat
  | postGenerate
deriving DecidableEq, Repr

/-- Python exceptions escaping the `chat_completion` body. -/
inductive PyExc where
  | requestException
  | httpError (status : Nat)
  | attributeError
deriving DecidableEq, Repr

/-- Outcome of one non-streaming upstream POST: a decoded JSON body, an HTTP
error status raised by `raise_for_status`, or a timeout. -/
inductive NSOutcome where
  | ok (body : JVal)
  | httpError (status : Nat)
  | timeout
deriving Repr

/-- Outcome of one streaming upstream POST: the decoded stream lines (`none`
marks a line failing JSON decoding), an HTTP error status, or a timeout. -/
inductive StOutcome where
  | ok (lines : List (Option (List (String × JVal))))
  | httpError (status : Nat)
  | timeout
deriving Repr

/-- Environment of one `chat_completion` call: what the network returns for
each request the call may issue.  The request payloads (model, temperature,
the messages, the prompt built by `format_generate_payload`) do not influence
the modelled replies, which this structure fixes. -/
structure CallEnv where
  verify_ok : Bool
  head_chat : Option Nat
  chat_ns : NSOutcome
  chat_st : StOutcome
  gen_ns : NSOutcome
  gen_st : StOutcome
deriving Repr

/-- Mutable per-instance state of `OllamaClient` relevant to chat completion:
the `_supports_chat_api` flag, the `lru_cache` memo entry of
`_check_chat_api_support` for this instance, and `_connection_verified`. -/
structure ClientState where
  supports_chat_api : Option Bool
  chat_support_memo : Option Bool
  connection_verified : Bool
deriving DecidableEq, Repr

/-- Client state right after `__init__`, whose `_verify_connection` call had
outcome `verified`; both caches start empty (`None`). -/
def initialClientState (verified : Bool) : ClientState :=
  ⟨none, none, verified⟩

/-- Result of running the body of one `chat_completion` call. -/
inductive CCOutcome where
  | ret (v : JVal)
  | raised (e : PyExc)
deriving Repr

/-- Run of one `chat_completion` call: the updated client state, the trace of
HTTP requests issued, the values yielded by the generator, and the generator
return value (the `StopIteration` value; `ret .null` models the body falling
off its end, returning `None`) or an escaping exception. -/
structure CallRun where
  state : ClientState
  reqs : List Endpoint
  yielded : List JVal
  outcome : CCOutcome
deriving Repr

/-- The `_verify_connection` method (`ollama_client.py` lines 47-118) as chat
completion observes it: a verified connection is returned from cache;
otherwise the verification requests run with the outcome fixed by the
environment, and only success is cached.  Its internal models-cache refresh
is not modelled (it does not affect the claims about `chat_completion`). -/
def verifyConnection (env : CallEnv) (st : ClientState) :
    Bool × ClientState × List Endpoint :=
  if st.connection_verified then (true, st, [])
  else if env.verify_ok then (true, { st with connection_verified := true }, [.verifyReq])
  else (false, st, [.verifyReq])

/-- The `_check_chat_api_support` method (`ollama_client.py` lines 158-184)
together with its `@lru_cache` wrapper: a memo hit returns the memoized value
without running the body; otherwise the body consults `_supports_chat_api`,
or probes `HEAD /api/chat` (any non-404 status counts as supported; a raised
probe defaults to unsupported), and the value the body returns is memoized. -/
def check_chat_api_support (env : CallEnv) (st : ClientState) :
    Bool × ClientState × List Endpoint :=
  match st.chat_support_memo with
  | some b => (b, st, [])
  | none =>
    match st.supports_chat_api with
    | some b => (b, { st with chat_support_memo := some b }, [])
    | none =>
      match env.head_chat with
      | some status =>
        let supported := status != 404
        (supported,
         { st with supports_chat_api := some supported, chat_support_memo := some supported },
         [.headChat])
      | none =>
        (false,
         { st with supports_chat_api := some false, chat_support_memo := some false },
         [.headChat])

/-- Empty-content filtering at the top of `chat_completion`
(`ollama_client.py` line 250): keep a message when its stripped content is
truthy or its role is not `assistant`. -/
def filteredMessages (messages : List ChatMsg) : List ChatMsg :=
  messages.filter
    (fun m => !(pyStrip m.content).isEmpty || !(m.role == "assistant".data))

/-- Synthetic response returned when the modern-endpoint request times out
(`ollama_client.py` lines 325-329). -/
def chatTimeoutResponse : JVal :=
  .dict [("message", .dict [("content", .str ("[The model took too long to respond. Please try again with a shorter query or try the \x27Analyze cell\x27 function for complex code.]").data)])]

/-- Synthetic response returned when the legacy-endpoint request times out
(`ollama_client.py` lines 393-397). -/
def genTimeoutResponse : JVal :=
  .dict [("message", .dict [("content", .str ("[The model took too long to respond. Please try again with a shorter query or try breaking your request into smaller parts.]").data)])]

/-- Truthiness of the Python attribute `self._supports_chat_api`
(`None` is falsy). -/
def optTruthy : Option Bool → Bool
  | none => false
  | some b => b

/-- Tail of the `chat_completion` body from `ollama_client.py` line 332 on:
when `not self._supports_chat_api` holds, dispatch to the legacy
`/api/generate` endpoint (streaming or not; only `Timeout` is caught there);
otherwise the body ends, returning `None`. -/
def generateSection (env : CallEnv) (st : ClientState) (reqs : List Endpoint)
    (yielded : List JVal) (stream : Bool) : CallRun :=
  if optTruthy st.supports_chat_api then ⟨st, reqs, yielded, .ret .null⟩
  else
    if stream then
      match env.gen_st with
      | .ok lines => ⟨st, reqs ++ [.postGenerate], yielded ++ streamGenLoop lines, .ret .null⟩
      | .httpError status => ⟨st, reqs ++ [.postGenerate], yielded, .raised (.httpError status)⟩
      | .timeout => ⟨st, reqs ++ [.postGenerate], yielded, .ret genTimeoutResponse⟩
    else
      match env.gen_ns with
      | .ok (.dict fields) =>
        ⟨st, reqs ++ [.postGenerate], yielded, .ret (normalizeGenerate fields)⟩
      | .ok _ => ⟨st, reqs ++ [.postGenerate], yielded, .raised .attributeError⟩
      | .httpError status => ⟨st, reqs ++ [.postGenerate], yielded, .raised (.httpError status)⟩
      | .timeout => ⟨st, reqs ++ [.postGenerate], yielded, .ret genTimeoutResponse⟩

/-- The `try` block around the modern-endpoint request in `chat_completion`
(`ollama_client.py` lines 277-329), entered when `check_chat_api_support`
returned true: issue `POST /api/chat` (streaming or not); on 404 clear
`_supports_chat_api` and fall through to the legacy section, on another HTTP
error re-raise, on timeout return the synthetic notice; a successful
streaming read also falls through to the legacy section afterwards (where
the truthy `_supports_chat_api` normally ends the body). -/
def chatTryBlock (env : CallEnv) (st2 : ClientState) (pre : List Endpoint)
    (stream : Bool) : CallRun :=
  if stream then
    match env.chat_st with
    | .ok lines =>
      generateSection env st2 (pre ++ [.postChat]) (streamChatLoop lines) stream
    | .httpError status =>
      if status = 404 then
        generateSection env { st2 with supports_chat_api := some false }
          (pre ++ [.postChat]) [] stream
      else ⟨st2, pre ++ [.postChat], [], .raised (.httpError status)⟩
    | .timeout => ⟨st2, pre ++ [.postChat], [], .ret chatTimeoutResponse⟩
  else
    match env.chat_ns with
    | .ok body => ⟨st2, pre ++ [.postChat], [], .ret (normalizeChat body)⟩
    | .httpError status =>
      if status = 404 then
        generateSection env { st2 with supports_chat_api := some false }
          (pre ++ [.postChat]) [] stream
      else ⟨st2, pre ++ [.postChat], [], .raised (.httpError status)⟩
    | .timeout => ⟨st2, pre ++ [.postChat], [], .ret chatTimeoutResponse⟩

/-- Body of `chat_completion` after the connection check succeeded
(`ollama_client.py` lines 249-397): filter empty messages (returning the
empty canonical response when nothing is left), consult
`check_chat_api_support`, and dispatch to the modern-endpoint try block or
directly to the legacy section. -/
def chatCompletionBody (env : CallEnv) (st1 : ClientState) (vreqs : List Endpoint)
    (messages : List ChatMsg) (stream : Bool) : CallRun :=
  if (filteredMessages messages).isEmpty then
    ⟨st1, vreqs, [], .ret (.dict [("message", .dict [("content", .str [])])])⟩
  else
    match check_chat_api_support env st1 with
    | (supported, st2, creqs) =>
      let pre := vreqs ++ creqs
      if supported then chatTryBlock env st2 pre stream
      else generateSection env st2 pre [] stream

/-- Body of one `chat_completion` call (`ollama_client.py` lines 223-397).
Because the body contains `yield` statements, Python returns a generator for
every invocation, streaming or not; `CallRun.yielded` lists the items
produced by iterating that generator and `CallRun.outcome` its final return
value or escaping exception.  Control flow: verify the connection (raising
`RequestException` on failure), then run `chatCompletionBody`. -/
def chat_completion (env : CallEnv) (st : ClientState) (messages : List ChatMsg)
    (stream : Bool) : CallRun :=
  match verifyConnection env st with
  | (false, st1, vreqs) => ⟨st1, vreqs, [], .raised .requestException⟩
  | (true, st1, vreqs) => chatCompletionBody env st1 vreqs messages stream

/-- Retry loop of `list_models` (`ollama_client.py` lines 131-156), over the
list of remaining attempt indices (`range(max_retries)`) with the current
`retry_delay`: returns how many fetch attempts were made, the `time.sleep`
durations in order, and the final result (the `models` field of the decoded
body, defaulting to the empty list) or the re-raised last error. -/
def listModelsLoop (fetch : Nat → Except String (List (String × JVal)))
    (retry_delay : Nat) : List Nat → Nat × List Nat × Except String JVal
  | [] => (0, [], .error "")
  | attempt :: rest =>
    match fetch attempt with
    | .ok body => (1, [], .ok ((jGet body "models").getD (.arr [])))
    | .error e =>
      match rest with
      | [] => (1, [], .error e)
      | _ :: _ =>
        let r := listModelsLoop fetch (retry_delay * 2) rest
        (r.1 + 1, retry_delay :: r.2.1, r.2.2)

/-- The `list_models` method (`ollama_client.py` lines 120-156): a non-empty
cache fresher than 300 seconds is returned directly (zero fetch attempts);
otherwise up to `max_retries = 3` attempts are made through `listModelsLoop`
with `retry_delay` starting at 1 and doubling after each failure.  `fetch i`
is the network outcome of attempt `i`: the decoded JSON body, or the raised
`RequestException` message. -/
def list_models (models_cache : List (String × JVal)) (models_cache_time now : Int)
    (fetch : Nat → Except String (List (String × JVal))) :
    Nat × List Nat × Except String JVal :=
  if !models_cache.isEmpty && decide (now - models_cache_time < 300) then
    (0, [], .ok ((jGet models_cache "models").getD (.arr [])))
  else listModelsLoop fetch 1 (List.range 3)

/-- A successful `pyRfind` returns an index within the requested window. -/
theorem pyRfind_le {s sub : List Char} {start stop i : Nat}
    (h : pyRfind s sub start stop = some i) :
    start ≤ i ∧ i + sub.length ≤ stop := by
  have hm := List.mem_of_getLast?_eq_some h
  have hm' := (List.mem_filter.mp hm).2
  simp only [Bool.and_eq_true, decide_eq_true_eq] at hm'
  exact ⟨hm'.1, hm'.2.1⟩

/-- The end position chosen for a chunk always lies strictly past the chunk
start, never past the hard boundary `current_pos + chunk_size`, and never
past the end of the text. -/
theorem chunkEnd_bounds {content : List Char} {chunk_size current_pos : Nat}
    (h1 : 1 ≤ chunk_size) (h2 : current_pos < content.length) :
    current_pos < chunkEnd content chunk_size current_pos ∧
    chunkEnd content chunk_size current_pos ≤ current_pos + chunk_size ∧
    chunkEnd content chunk_size current_pos ≤ content.length := by
  simp only [chunkEnd]
  split
  · split
    · next pb hpb =>
      have hb := pyRfind_le hpb
      simp only [List.length_cons, List.length_nil] at hb
      split
      · next hmid =>
        refine ⟨by omega, by omega, by omega⟩
      · split
        · next sb hsb =>
          have hb2 := pyRfind_le hsb
          simp only [List.length_cons, List.length_nil] at hb2
          split
          · next hmid2 => exact ⟨by omega, by omega, by omega⟩
          · exact ⟨by omega, by omega, by omega⟩
        · exact ⟨by omega, by omega, by omega⟩
    · split
      · next sb hsb =>
        have hb2 := pyRfind_le hsb
        simp only [List.length_cons, List.length_nil] at hb2
        split
        · next hmid2 => exact ⟨by omega, by omega, by omega⟩
        · exact ⟨by omega, by omega, by omega⟩
      · exact ⟨by omega, by omega, by omega⟩
  · exact ⟨by omega, by omega, by omega⟩

/-- Concatenating the chunks produced by the pagination loop recovers the
tail of the text from the loop's start position, as long as the fuel covers
the remaining length. -/
theorem paginateChunks_flatten {content : List Char} {chunk_size : Nat}
    (h1 : 1 ≤ chunk_size) :
    ∀ fuel current_pos, content.length - current_pos ≤ fuel →
      (paginateChunks content chunk_size fuel current_pos).flatten =
        content.drop current_pos := by
  intro fuel
  induction fuel with
  | zero =>
    intro cp h
    have hle : content.length ≤ cp := by omega
    simp [paginateChunks, List.drop_of_length_le hle]
  | succ fuel ih =>
    intro cp h
    by_cases hcp : cp < content.length
    · obtain ⟨hlo, hhi, hlen⟩ := chunkEnd_bounds h1 hcp
      simp only [paginateChunks, if_pos hcp, List.flatten_cons]
      rw [ih (chunkEnd content chunk_size cp) (by omega)]
      have hdd : content.drop (chunkEnd content chunk_size cp) =
          (content.drop cp).drop (chunkEnd content chunk_size cp - cp) := by
        rw [List.drop_drop]
        congr 1
        omega
      rw [hdd, List.take_append_drop]
    · have hle : content.length ≤ cp := by omega
      simp [paginateChunks, hcp, List.drop_of_length_le hle]

/-- C3: for every string input and every chunk size at least 1, with
pagination enabled, concatenating in order the chunks returned by
`paginate_response` reproduces the original string exactly (the chunks form
an ordered, non-overlapping partition of the input). -/
theorem claim_C3_paginate_roundtrip (content : List Char) (chunk_size : Nat)
    (h : 1 ≤ chunk_size) :
    (paginate_response true content chunk_size).flatten = content := by
  unfold paginate_response
  simp only [Bool.not_true, Bool.false_eq_true, if_false]
  split
  · simp
  · simpa using paginateChunks_flatten h content.length 0 (by omega)

/-- Witness for C3 at a concrete input. -/
theorem claim_C3_paginate_roundtrip_witness :
    1 ≤ 2 ∧ (paginate_response true "abcde".data 2).flatten = "abcde".data :=
  ⟨by decide, claim_C3_paginate_roundtrip "abcde".data 2 (by decide)⟩

/-- Every chunk produced by the pagination loop has length at most
`chunk_size`: break points never push a chunk past the hard boundary. -/
theorem paginateChunks_length_le {content : List Char} {chunk_size : Nat}
    (h1 : 1 ≤ chunk_size) :
    ∀ fuel current_pos chunk,
      chunk ∈ paginateChunks content chunk_size fuel current_pos →
      chunk.length ≤ chunk_size := by
  intro fuel
  induction fuel with
  | zero =>
    intro cp chunk h
    simp [paginateChunks] at h
  | succ fuel ih =>
    intro cp chunk h
    by_cases hcp : cp < content.length
    · obtain ⟨hlo, hhi, hlen⟩ := chunkEnd_bounds h1 hcp
      simp only [paginateChunks, if_pos hcp, List.mem_cons] at h
      rcases h with h | h
      · subst h
        simp only [List.length_take, List.length_drop]
        omega
      · exact ih _ _ h
    · simp [paginateChunks, hcp] at h

/-- C5: for every string input and every chunk size at least 1, no chunk
returned by `paginate_response` (with pagination enabled) is strictly longer
than the configured chunk size: paragraph and sentence break points chosen
past the midpoint never push a chunk's end beyond the hard boundary at the
start position plus the chunk size. -/
theorem claim_C5_chunk_length_bound (content : List Char) (chunk_size : Nat)
    (h : 1 ≤ chunk_size) :
    ∀ chunk ∈ paginate_response true content chunk_size,
      chunk.length ≤ chunk_size := by
  intro chunk hc
  unfold paginate_response at hc
  simp only [Bool.not_true, Bool.false_eq_true, if_false] at hc
  by_cases hfit : content.length ≤ chunk_size
  · rw [if_pos hfit] at hc
    simp only [List.mem_singleton] at hc
    subst hc
    exact hfit
  · rw [if_neg hfit] at hc
    exact paginateChunks_length_le h content.length 0 chunk hc

/-- Witness for C5 at a concrete input. -/
theorem claim_C5_chunk_length_bound_witness :
    1 ≤ 3 ∧ ∀ chunk ∈ paginate_response true "abcdefgh".data 3, chunk.length ≤ 3 :=
  ⟨by decide, claim_C5_chunk_length_bound "abcdefgh".data 3 (by decide)⟩

/-- C6: when the models cache is empty or at least as old as its 300-second
TTL, and every network fetch fails, `list_models` makes exactly three fetch
attempts separated by strictly increasing doubling delays (1 second, then 2
seconds), and after the third failure surfaces that third error to the
caller by re-raising it. -/
theorem claim_C6_list_models_retry (models_cache : List (String × JVal))
    (models_cache_time now : Int)
    (fetch : Nat → Except String (List (String × JVal))) (e : Nat → String)
    (hcache : models_cache = [] ∨ 300 ≤ now - models_cache_time)
    (hfail : ∀ i, fetch i = .error (e i)) :
    list_models models_cache models_cache_time now fetch = (3, [1, 2], .error (e 2)) := by
  unfold list_models
  have hcond : (!models_cache.isEmpty && decide (now - models_cache_time < 300)) = false := by
    rcases hcache with h | h
    · simp [h]
    · have : decide (now - models_cache_time < 300) = false := by
        simp only [decide_eq_false_iff_not]
        omega
      simp [this]
  rw [hcond, if_neg (by simp)]
  have hrange : List.range 3 = [0, 1, 2] := rfl
  rw [hrange]
  simp [listModelsLoop, hfail 0, hfail 1, hfail 2]

/-- Witness for C6 at a concrete input. -/
theorem claim_C6_list_models_retry_witness :
    (([] : List (String × JVal)) = [] ∨ 300 ≤ (1000 : Int) - 0) ∧
    list_models [] 0 1000 (fun _ => .error "boom") = (3, [1, 2], .error "boom") :=
  ⟨Or.inl rfl,
    claim_C6_list_models_retry [] 0 1000 (fun _ => .error "boom") (fun _ => "boom")
      (Or.inl rfl) (fun _ => rfl)⟩

/-- Field-wise description of the sanitization loop: every field value is
passed through `sanitizeValue`, keys unchanged and in order. -/
theorem sanitizeDict_eq_map (d : List (String × JVal)) :
    sanitizeDict d = d.map (fun kv => (kv.1, sanitizeValue kv.2)) := by
  induction d with
  | nil => rfl
  | cons kv rest ih =>
    cases kv
    simp [sanitizeDict, ih]

/-- The sanitized list has the same length as the original. -/
theorem sanitizeList_length (items : List JVal) :
    (sanitizeList items).length = items.length := by
  induction items with
  | nil => rfl
  | cons item rest ih =>
    cases item <;> simp [sanitizeList, ih]

/-- List items that are not dicts are kept unchanged at their position by the
sanitization of a list. -/
theorem sanitizeList_get_of_not_dict :
    ∀ (items : List JVal) (i : Nat) (h : i < items.length)
      (h' : i < (sanitizeList items).length),
      (items.get ⟨i, h⟩).isDict = false →
      (sanitizeList items).get ⟨i, h'⟩ = items.get ⟨i, h⟩ := by
  intro items
  induction items with
  | nil => intro i h; simp at h
  | cons item rest ih =>
    intro i h h' hnd
    cases i with
    | zero =>
      cases item <;> simp_all [sanitizeList, JVal.isDict]
    | succ i =>
      cases item <;>
        · simp only [sanitizeList, List.get_cons_succ] at h' ⊢
          exact ih i (by simpa using h) (by simpa using h') (by simpa using hnd)

/-- Dict elements of a list are sanitized recursively, in place. -/
theorem sanitizeList_get_dict :
    ∀ (items : List JVal) (i : Nat) (h : i < items.length)
      (h' : i < (sanitizeList items).length) (fields : List (String × JVal)),
      items.get ⟨i, h⟩ = .dict fields →
      (sanitizeList items).get ⟨i, h'⟩ = .dict (sanitizeDict fields) := by
  intro items
  induction items with
  | nil => intro i h; simp at h
  | cons item rest ih =>
    intro i h h' fields hd
    cases i with
    | zero =>
      cases item <;> simp_all [sanitizeList]
    | succ i =>
      cases item <;>
        · simp only [sanitizeList, List.get_cons_succ] at h' ⊢
          exact ih i (by simpa using h) (by simpa using h') fields (by simpa using hd)

/-- C9: for every inbound request dict, `validate_input` truncates every
string value of a dict field to at most `MAX_MESSAGE_LENGTH = 32000`
characters and HTML-escapes it, recurses into nested dicts and into dict
elements of lists (a dict at position `i` of a list field is replaced by its
recursively sanitized form at the same position), while string (and other
non-dict) elements of lists are passed through unmodified, neither truncated
nor escaped. -/
theorem claim_C9_validate_input (data : List (String × JVal)) (k : String) (v : JVal)
    (hmem : (k, v) ∈ data) :
    (∀ s, v = .str s →
      (k, .str (htmlEscape (s.take MAX_MESSAGE_LENGTH))) ∈ sanitizeDict data ∧
      validate_input data [] = .ok (sanitizeDict data)) ∧
    (∀ items, v = .arr items →
      ∃ items', (k, .arr items') ∈ sanitizeDict data ∧
        items'.length = items.length ∧
        (∀ i (h : i < items.length) (h' : i < items'.length),
          (items.get ⟨i, h⟩).isDict = false → items'.get ⟨i, h'⟩ = items.get ⟨i, h⟩) ∧
        (∀ i (h : i < items.length) (h' : i < items'.length)
            (fields : List (String × JVal)),
          items.get ⟨i, h⟩ = .dict fields →
          items'.get ⟨i, h'⟩ = .dict (sanitizeDict fields))) ∧
    (∀ fields, v = .dict fields →
      (k, .dict (sanitizeDict fields)) ∈ sanitizeDict data) := by
  have hmap : ∀ w, (k, w) = ((fun kv => (kv.1, sanitizeValue kv.2)) (k, v)) →
      (k, w) ∈ sanitizeDict data := by
    intro w hw
    rw [sanitizeDict_eq_map]
    rw [hw]
    exact List.mem_map_of_mem _ hmem
  refine ⟨?_, ?_, ?_⟩
  · intro s hs
    subst hs
    constructor
    · apply hmap
      simp only [sanitizeValue]
      congr 2
      split
      · rfl
      · next hle => rw [List.take_of_length_le (by omega)]
    · rfl
  · intro items hv
    subst hv
    refine ⟨sanitizeList items, hmap _ rfl, sanitizeList_length items,
      sanitizeList_get_of_not_dict items, sanitizeList_get_dict items⟩
  · intro fields hv
    subst hv
    exact hmap _ rfl

/-- Witness for C9 at a concrete input: a string field is escaped, and a
non-dict list element survives untouched. -/
theorem claim_C9_validate_input_witness :
    (("a", JVal.str ['&']) ∈ ([("a", JVal.str ['&'])] : List (String × JVal))) ∧
    ("a", JVal.str (htmlEscape (['&'].take MAX_MESSAGE_LENGTH))) ∈
      sanitizeDict [("a", JVal.str ['&'])] :=
  ⟨List.mem_singleton.mpr rfl,
    ((claim_C9_validate_input [("a", JVal.str ['&'])] "a" (JVal.str ['&'])
      (List.mem_singleton.mpr rfl)).1 ['&'] rfl).1⟩

/-- Both branches of the user-message case append a line ending with the
closing instruction marker. -/
theorem formatStep_user_suffix (acc : List (List Char)) (m : ChatMsg)
    (hrole : pyRoleLower m.role = "user".data) :
    ∃ lastLine, formatStep acc m = acc ++ [lastLine] ∧
      "[/INST]".data <:+ lastLine := by
  have hclose : "[/INST]".data <:+ " [/INST]".data := ⟨[' '], rfl⟩
  unfold formatStep
  rw [hrole]
  have h1 : ("user".data == "system".data) = false := by decide
  have h2 : ("user".data == "user".data) = true := by decide
  simp only [h1, Bool.false_and, if_false, h2, if_true, Bool.false_eq_true]
  split
  · exact ⟨_, rfl,
      hclose.trans ((List.suffix_append _ _).trans (List.suffix_append _ _))⟩
  · exact ⟨_, rfl, hclose.trans (List.suffix_append _ _)⟩

/-- When the last message has the user role, the accumulated lines end with a
line carrying the closing instruction marker. -/
theorem formatLinesAux_user_last :
    ∀ (msgs : List ChatMsg) (acc : List (List Char)) (m : ChatMsg),
      msgs.getLast? = some m → pyRoleLower m.role = "user".data →
      ∃ init lastLine, formatLinesAux msgs acc = init ++ [lastLine] ∧
        "[/INST]".data <:+ lastLine := by
  intro msgs
  induction msgs with
  | nil => intro acc m h hrole; simp at h
  | cons m0 rest ih =>
    intro acc m hlast hrole
    cases rest with
    | nil =>
      have hm : m0 = m := by simpa using hlast
      subst hm
      obtain ⟨lastLine, heq, hsuf⟩ := formatStep_user_suffix acc m0 hrole
      exact ⟨acc, lastLine, heq, hsuf⟩
    | cons m1 rest' =>
      have hlast' : (m1 :: rest').getLast? = some m := by
        rwa [List.getLast?_cons_cons] at hlast
      exact ih (formatStep acc m0) m hlast' hrole

/-- The closing-marker fix-up leaves lines whose last line already ends with
the marker unchanged. -/
theorem fixupLines_of_closed {init : List (List Char)} {lastLine : List Char}
    (h : "[/INST]".data <:+ lastLine) :
    fixupLines (init ++ [lastLine]) = init ++ [lastLine] := by
  have hb : endsWithL lastLine "[/INST]".data = true := by
    unfold endsWithL
    rw [List.isSuffixOf_iff_suffix]
    exact h
  unfold fixupLines
  rw [List.getLast?_concat]
  simp [hb]

/-- A prompt whose final message has the user role ends with the closing
instruction marker. -/
theorem format_generate_payload_user_last (msgs : List ChatMsg) (m : ChatMsg)
    (h1 : msgs.getLast? = some m) (h2 : pyRoleLower m.role = "user".data) :
    endsWithL (format_generate_payload msgs) "[/INST]".data = true := by
  obtain ⟨init, lastLine, heq, hsuf⟩ := formatLinesAux_user_last msgs [] m h1 h2
  unfold format_generate_payload
  rw [heq, fixupLines_of_closed hsuf]
  unfold endsWithL
  rw [List.isSuffixOf_iff_suffix, List.flatten_append]
  have : ([lastLine] : List (List Char)).flatten = lastLine := by
    simp
  rw [this]
  exact hsuf.trans (List.suffix_append _ _)

/-- C7: for the two-message input `[{role: system, content: "S"}, {role:
user, content: "U"}]`, `_format_generate_payload` produces a prompt in which
`"S"` occurs before `"U"` and which ends with the closing instruction marker
`[/INST]` on the final user turn; and in general the prompt for any message
list whose final message has the user role ends with the closing marker (the
formatter always closes a final user message). -/
theorem claim_C7_format_generate_payload :
    (∃ i j, subPos (format_generate_payload
          [⟨"system".data, "S".data⟩, ⟨"user".data, "U".data⟩]) "S".data = some i ∧
        subPos (format_generate_payload
          [⟨"system".data, "S".data⟩, ⟨"user".data, "U".data⟩]) "U".data = some j ∧
        i < j) ∧
    endsWithL (format_generate_payload
      [⟨"system".data, "S".data⟩, ⟨"user".data, "U".data⟩]) "[/INST]".data = true ∧
    ∀ (msgs : List ChatMsg) (m : ChatMsg), msgs.getLast? = some m →
      pyRoleLower m.role = "user".data →
      endsWithL (format_generate_payload msgs) "[/INST]".data = true :=
  ⟨⟨6, 30, by decide, by decide, by decide⟩, by decide,
    format_generate_payload_user_last⟩

/-- Witness for C7's general part at a concrete input. -/
theorem claim_C7_format_generate_payload_witness :
    endsWithL (format_generate_payload [⟨"user".data, "hi".data⟩]) "[/INST]".data = true :=
  claim_C7_format_generate_payload.2.2 [⟨"user".data, "hi".data⟩]
    ⟨"user".data, "hi".data⟩ rfl (by decide)

/-- Reading back the key just written by `dictSet` yields the written value. -/
theorem jGet_dictSet (d : List (String × JVal)) (k : String) (v : JVal) :
    jGet (dictSet d k v) k = some v := by
  induction d with
  | nil => simp [dictSet, jGet, List.find?]
  | cons kv rest ih =>
    cases kv with
    | mk k' v' =>
      by_cases h : (k' == k) = true
      · simp [dictSet, h, jGet, List.find?]
      · simp only [dictSet, h, if_false, Bool.false_eq_true]
        simpa [jGet, List.find?, h] using ih

/-- Looking up `message.content` in the canonical wrapped response. -/
theorem messageContent_mk (c : JVal) :
    messageContent (.dict [("message", .dict [("content", c)])]) = some c := rfl

/-- Looking up the only key of a singleton dict. -/
theorem jGet_singleton (k : String) (x : JVal) : jGet [(k, x)] k = some x := by
  simp [jGet, List.find?]

/-- C4 is falsified by the code: a modern-endpoint body whose
`message.content` field is present but `null` is returned to the caller with
the `null` intact by the non-streaming normalization in `chat_completion`. -/
theorem claim_C4_counterexample :
    (chat_completion
        ⟨true, some 200, .ok (.dict [("message", .dict [("content", JVal.null)])]),
          .ok [], .ok (.dict []), .ok []⟩
        (initialClientState true) [⟨"user".data, "Hi".data⟩] false).outcome
      = .ret (.dict [("message", .dict [("content", JVal.null)])]) ∧
    messageContent (.dict [("message", .dict [("content", JVal.null)])])
      = some JVal.null :=
  ⟨rfl, rfl⟩

/-- C4 amended: the legacy-endpoint non-streaming normalization always
produces a present, non-null `message.content` (a missing or `null`
`response` field is coerced to the empty string), and the modern-endpoint
non-streaming normalization always produces a present `message.content` key,
coercing a missing `message` or a missing `content` key to a string — but a
`content` key explicitly present with value `null` passes through as `null`,
and streaming chunks are forwarded without this normalization. -/
theorem claim_C4_amended (fields : List (String × JVal)) (v : JVal) :
    (∃ c, messageContent (normalizeGenerate fields) = some c ∧ c ≠ JVal.null) ∧
    (messageContent (normalizeChat v)).isSome = true := by
  constructor
  · rcases h : (jGet fields "response").getD (.str []) with _ | b | n | s | items | flds
    · exact ⟨.str [], by simp only [normalizeGenerate, h, messageContent_mk], by intro hc; cases hc⟩
    · exact ⟨.bool b, by simp only [normalizeGenerate, h, messageContent_mk], by intro hc; cases hc⟩
    · exact ⟨.num n, by simp only [normalizeGenerate, h, messageContent_mk], by intro hc; cases hc⟩
    · exact ⟨.str s, by simp only [normalizeGenerate, h, messageContent_mk], by intro hc; cases hc⟩
    · exact ⟨.arr items, by simp only [normalizeGenerate, h, messageContent_mk], by intro hc; cases hc⟩
    · exact ⟨.dict flds, by simp only [normalizeGenerate, h, messageContent_mk], by intro hc; cases hc⟩
  · rcases v with _ | b | n | s | items | flds
    · simp [normalizeChat, messageContent_mk]
    · cases b <;> simp [normalizeChat, messageContent_mk]
    · simp [normalizeChat, messageContent_mk]
    · simp [normalizeChat, messageContent_mk]
    · simp [normalizeChat, messageContent_mk]
    · rcases hm : jGet flds "message" with _ | msg
      · simp [normalizeChat, hm, messageContent_mk]
      · rcases msg with _ | b | n | s | mitems | mfields
        case dict =>
          simp only [normalizeChat, hm]
          split
          · next hsome =>
            simp only [messageContent, hm]
            exact hsome
          · simp [messageContent, jGet_dictSet, jGet_singleton]
        all_goals
          simp [normalizeChat, hm, messageContent, jGet_dictSet, jGet_singleton]

/-- Witness instantiating the amended C4 statement at concrete payloads. -/
theorem claim_C4_amended_witness :
    (∃ c, messageContent (normalizeGenerate [("response", JVal.null)]) = some c ∧
      c ≠ JVal.null) ∧
    (messageContent (normalizeChat (JVal.dict []))).isSome = true :=
  claim_C4_amended [("response", JVal.null)] (JVal.dict [])

/-- Relationship between the `lru_cache` memo and the `_supports_chat_api`
flag that holds in every reachable client state: the memo fills no later than
the flag, and a memoized `False` pins the flag at `False` (a 404 observed
later can clear the flag while the memo stays `True`, and nothing ever raises
the flag again once the memo is filled). -/
def ClientState.WF (st : ClientState) : Prop :=
  (st.chat_support_memo = none → st.supports_chat_api = none) ∧
  (st.chat_support_memo = some false → st.supports_chat_api = some false)

/-- The legacy section yields nothing in non-streaming mode. -/
theorem generateSection_yielded (env : CallEnv) (st' : ClientState)
    (reqs : List Endpoint) :
    (generateSection env st' reqs [] false).yielded = [] := by
  unfold generateSection
  split
  · rfl
  · rcases hg : env.gen_ns with body | status | _
    · cases body <;> rfl
    · rfl
    · rfl

/-- When the flag is false the legacy section always issues exactly one
`POST /api/generate` and leaves the client state unchanged. -/
theorem generateSection_flag_false (env : CallEnv) (st' : ClientState)
    (reqs : List Endpoint) (y : List JVal) (stream : Bool)
    (h : st'.supports_chat_api = some false) :
    (generateSection env st' reqs y stream).reqs = reqs ++ [.postGenerate] ∧
    (generateSection env st' reqs y stream).state = st' := by
  unfold generateSection
  rw [show optTruthy st'.supports_chat_api = false by rw [h]; rfl]
  cases stream
  · rcases hg : env.gen_ns with body | status | _
    · cases body <;> exact ⟨rfl, rfl⟩
    · exact ⟨rfl, rfl⟩
    · exact ⟨rfl, rfl⟩
  · rcases hg : env.gen_st with lines | status | _
    · exact ⟨rfl, rfl⟩
    · exact ⟨rfl, rfl⟩
    · exact ⟨rfl, rfl⟩

/-- A non-streaming legacy request that times out produces the synthetic
legacy timeout notice. -/
theorem generateSection_timeout (env : CallEnv) (st' : ClientState)
    (reqs : List Endpoint) (y : List JVal)
    (h : st'.supports_chat_api = some false) (ht : env.gen_ns = .timeout) :
    (generateSection env st' reqs y false).outcome = .ret genTimeoutResponse := by
  unfold generateSection
  rw [show optTruthy st'.supports_chat_api = false by rw [h]; rfl, ht]
  rfl

/-- A non-streaming modern-endpoint request that times out produces the
synthetic chat timeout notice. -/
theorem chatTryBlock_timeout (env : CallEnv) (st2 : ClientState)
    (pre : List Endpoint) (ht : env.chat_ns = .timeout) :
    (chatTryBlock env st2 pre false).outcome = .ret chatTimeoutResponse := by
  unfold chatTryBlock
  rw [ht]
  rfl

/-- A 404 from the modern endpoint clears the flag and falls through to the
legacy section within the same call. -/
theorem chatTryBlock_404 (env : CallEnv) (st2 : ClientState)
    (pre : List Endpoint) (h : env.chat_ns = .httpError 404) :
    chatTryBlock env st2 pre false =
      generateSection env { st2 with supports_chat_api := some false }
        (pre ++ [.postChat]) [] false := by
  unfold chatTryBlock
  rw [h]
  rfl

/-- The modern-endpoint try block yields nothing in non-streaming mode. -/
theorem chatTryBlock_yielded (env : CallEnv) (st2 : ClientState)
    (pre : List Endpoint) :
    (chatTryBlock env st2 pre false).yielded = [] := by
  unfold chatTryBlock
  rcases hcn : env.chat_ns with body | status | _
  · rfl
  · dsimp only
    by_cases h4 : status = 404
    · rw [if_pos h4]
      show (generateSection env { st2 with supports_chat_api := some false }
        (pre ++ [Endpoint.postChat]) [] false).yielded = []
      exact generateSection_yielded env _ _
    · rw [if_neg h4]
      rfl
  · rfl

/-- A memo hit returns the memoized value and issues no request. -/
theorem check_memo (env : CallEnv) (st : ClientState) (b : Bool)
    (h : st.chat_support_memo = some b) :
    check_chat_api_support env st = (b, st, []) := by
  unfold check_chat_api_support
  rw [h]

/-- In a reachable state, the capability check either returns true, or
returns false with the flag pinned at false afterwards. -/
theorem check_spec (env : CallEnv) (st : ClientState) (hwf : st.WF) :
    (check_chat_api_support env st).1 = true ∨
    ((check_chat_api_support env st).1 = false ∧
      (check_chat_api_support env st).2.1.supports_chat_api = some false) := by
  unfold check_chat_api_support
  cases hm : st.chat_support_memo with
  | some b =>
    cases b
    · exact Or.inr ⟨rfl, hwf.2 hm⟩
    · exact Or.inl rfl
  | none =>
    rw [hwf.1 hm]
    cases hh : env.head_chat with
    | some status =>
      cases hs : status != 404
      · exact Or.inr ⟨by simp only [hs], by simp only [hs]⟩
      · exact Or.inl (by simp only [hs])
    | none => exact Or.inr ⟨rfl, rfl⟩

/-- The capability check issues at most the HEAD probe. -/
theorem check_reqs (env : CallEnv) (st : ClientState) :
    (check_chat_api_support env st).2.2 = [] ∨
    (check_chat_api_support env st).2.2 = [Endpoint.headChat] := by
  unfold check_chat_api_support
  cases hm : st.chat_support_memo with
  | some b => exact Or.inl rfl
  | none =>
    cases hfl : st.supports_chat_api with
    | some b => exact Or.inl rfl
    | none =>
      cases hh : env.head_chat with
      | some status => exact Or.inr rfl
      | none => exact Or.inr rfl

/-- When the connection is verified or verifiable, `_verify_connection`
succeeds, preserves both capability caches, and issues at most the
verification requests. -/
theorem verifyConnection_of_ok (env : CallEnv) (st : ClientState)
    (h : st.connection_verified = true ∨ env.verify_ok = true) :
    ∃ st1 vreqs, verifyConnection env st = (true, st1, vreqs) ∧
      st1.supports_chat_api = st.supports_chat_api ∧
      st1.chat_support_memo = st.chat_support_memo ∧
      (vreqs = [] ∨ vreqs = [Endpoint.verifyReq]) := by
  unfold verifyConnection
  cases hcv : st.connection_verified with
  | true => exact ⟨st, [], rfl, rfl, rfl, Or.inl rfl⟩
  | false =>
    rcases h with h | h
    · rw [hcv] at h
      cases h
    · rw [h]
      exact ⟨{ st with connection_verified := true }, [.verifyReq], rfl, rfl, rfl,
        Or.inr rfl⟩

/-- A successful connection check hands control to the post-verify body. -/
theorem chat_completion_of_ok (env : CallEnv) (st : ClientState)
    (messages : List ChatMsg) (stream : Bool) (st1 : ClientState)
    (vreqs : List Endpoint) (h : verifyConnection env st = (true, st1, vreqs)) :
    chat_completion env st messages stream =
      chatCompletionBody env st1 vreqs messages stream := by
  unfold chat_completion
  rw [h]

/-- With a non-empty filtered message list, the post-verify body dispatches
on the capability check's result. -/
theorem chatCompletionBody_check (env : CallEnv) (st1 : ClientState)
    (vreqs : List Endpoint) (messages : List ChatMsg) (stream : Bool)
    (sup : Bool) (st2 : ClientState) (creqs : List Endpoint)
    (hne : (filteredMessages messages).isEmpty = false)
    (hc : check_chat_api_support env st1 = (sup, st2, creqs)) :
    chatCompletionBody env st1 vreqs messages stream =
      if sup then chatTryBlock env st2 (vreqs ++ creqs) stream
      else generateSection env st2 (vreqs ++ creqs) [] stream := by
  unfold chatCompletionBody
  rw [hne, hc]
  rfl

/-- C8: because the `chat_completion` body contains `yield` statements, every
invocation returns a generator rather than a dict (modelled by `CallRun`:
items iterated are `yielded`, the `StopIteration` value is `outcome`); with
`stream = False` no `yield` statement ever runs, so iterating the returned
generator in non-streaming mode produces zero items and the normalized
response dict is delivered only as the generator's return value. -/
theorem claim_C8_generator_nonstreaming (env : CallEnv) (st : ClientState)
    (messages : List ChatMsg) :
    (chat_completion env st messages false).yielded = [] := by
  unfold chat_completion
  rcases hv : verifyConnection env st with ⟨b, st1, vreqs⟩
  cases b
  · rfl
  · show (chatCompletionBody env st1 vreqs messages false).yielded = []
    cases hf : (filteredMessages messages).isEmpty
    · rcases hc : check_chat_api_support env st1 with ⟨sup, st2, creqs⟩
      rw [chatCompletionBody_check env st1 vreqs messages false sup st2 creqs hf hc]
      cases sup
      · exact generateSection_yielded env st2 (vreqs ++ creqs)
      · exact chatTryBlock_yielded env st2 (vreqs ++ creqs)
    · unfold chatCompletionBody
      rw [hf]
      rfl

set_option maxRecDepth 8192 in
/-- C2: for every non-streaming `chat_completion` call on a reachable client
state in which the upstream HTTP request times out (whichever endpoint ends
up being used), the body returns — rather than raising — a normalized
response dict whose `message.content` is a user-facing text mentioning that
the model took too long. -/
theorem claim_C2_timeout_degraded (env : CallEnv) (st : ClientState)
    (messages : List ChatMsg) (hwf : st.WF)
    (hver : st.connection_verified = true ∨ env.verify_ok = true)
    (hne : (filteredMessages messages).isEmpty = false)
    (hct : env.chat_ns = .timeout) (hgt : env.gen_ns = .timeout) :
    ∃ v s, (chat_completion env st messages false).outcome = .ret v ∧
      messageContent v = some (.str s) ∧
      containsSub s "took too long".data = true := by
  obtain ⟨st1, vreqs, heq, hflag, hmemo, _⟩ := verifyConnection_of_ok env st hver
  rw [chat_completion_of_ok env st messages false st1 vreqs heq]
  have hwf1 : st1.WF := by
    constructor
    · intro h
      rw [hflag]
      exact hwf.1 (by rw [← hmemo]; exact h)
    · intro h
      rw [hflag]
      exact hwf.2 (by rw [← hmemo]; exact h)
  rcases hc : check_chat_api_support env st1 with ⟨sup, st2, creqs⟩
  have hcs := check_spec env st1 hwf1
  rw [hc] at hcs
  simp only at hcs
  rw [chatCompletionBody_check env st1 vreqs messages false sup st2 creqs hne hc]
  rcases hcs with hsup | ⟨hsup, hflag2⟩
  · rw [hsup, if_pos rfl]
    exact ⟨chatTimeoutResponse, _, chatTryBlock_timeout env st2 _ hct, rfl, by decide⟩
  · rw [hsup]
    rw [show (if false = true then chatTryBlock env st2 (vreqs ++ creqs) false
        else generateSection env st2 (vreqs ++ creqs) [] false) =
        generateSection env st2 (vreqs ++ creqs) [] false from rfl]
    exact ⟨genTimeoutResponse, _,
      generateSection_timeout env st2 _ [] hflag2 hgt, rfl, by decide⟩

set_option maxRecDepth 8192 in
/-- Witness for C2 at a concrete timed-out call. -/
theorem claim_C2_timeout_degraded_witness :
    ∃ v s, (chat_completion ⟨true, some 200, .timeout, .timeout, .timeout, .timeout⟩
        ⟨none, none, true⟩ [⟨"user".data, "Hi".data⟩] false).outcome = .ret v ∧
      messageContent v = some (.str s) ∧
      containsSub s "took too long".data = true :=
  claim_C2_timeout_degraded _ _ _ ⟨fun _ => rfl, fun h => Option.noConfusion h⟩
    (Or.inl rfl) (by decide) rfl rfl

/-- C10: the filtered message list is empty exactly when every input message
is an assistant message with empty or whitespace-only content, and in that
case `chat_completion` produces `{"message": {"content": ""}}` as its return
value without dispatching any request to the chat or generate endpoint (nor
any capability probe). -/
theorem claim_C10_empty_messages (env : CallEnv) (st : ClientState)
    (messages : List ChatMsg) (stream : Bool) :
    (filteredMessages messages = [] ↔
      ∀ m ∈ messages, m.role = "assistant".data ∧ pyStrip m.content = []) ∧
    (filteredMessages messages = [] →
      (st.connection_verified = true ∨ env.verify_ok = true) →
      (chat_completion env st messages stream).outcome =
        .ret (.dict [("message", .dict [("content", .str [])])]) ∧
      Endpoint.postChat ∉ (chat_completion env st messages stream).reqs ∧
      Endpoint.postGenerate ∉ (chat_completion env st messages stream).reqs ∧
      Endpoint.headChat ∉ (chat_completion env st messages stream).reqs) := by
  constructor
  · unfold filteredMessages
    rw [List.filter_eq_nil_iff]
    simp [List.isEmpty_iff, and_comm]
  · intro hempty hver
    obtain ⟨st1, vreqs, heq, _, _, hvr⟩ := verifyConnection_of_ok env st hver
    rw [chat_completion_of_ok env st messages stream st1 vreqs heq]
    unfold chatCompletionBody
    rw [show (filteredMessages messages).isEmpty = true by rw [hempty]; rfl]
    refine ⟨rfl, ?_, ?_, ?_⟩ <;>
      · show _ ∉ vreqs
        rcases hvr with h | h <;> simp [h]

/-- Witness for C10 at a concrete all-blank-assistant input. -/
theorem claim_C10_empty_messages_witness :
    (chat_completion ⟨true, some 200, .timeout, .timeout, .timeout, .timeout⟩
        ⟨none, none, true⟩ [⟨"assistant".data, " ".data⟩] false).outcome =
      .ret (.dict [("message", .dict [("content", .str [])])]) ∧
    Endpoint.postChat ∉ (chat_completion ⟨true, some 200, .timeout, .timeout, .timeout, .timeout⟩
        ⟨none, none, true⟩ [⟨"assistant".data, " ".data⟩] false).reqs ∧
    Endpoint.postGenerate ∉ (chat_completion ⟨true, some 200, .timeout, .timeout, .timeout, .timeout⟩
        ⟨none, none, true⟩ [⟨"assistant".data, " ".data⟩] false).reqs ∧
    Endpoint.headChat ∉ (chat_completion ⟨true, some 200, .timeout, .timeout, .timeout, .timeout⟩
        ⟨none, none, true⟩ [⟨"assistant".data, " ".data⟩] false).reqs :=
  (claim_C10_empty_messages _ _ _ false).2 (by decide) (Or.inl rfl)

/-- Environment falsifying C1: the client's first call probes successfully
(HEAD status 405), the chat endpoint answers 404, and the generate endpoint
answers normally. -/
def cexC1Env : CallEnv :=
  ⟨true, some 405, .httpError 404, .httpError 404,
    .ok (.dict [("response", .str "hi".data)]), .ok []⟩

/-- C1 is falsified by the code: after a first call observes a 404 from the
chat endpoint (and falls back to generate), the second call on the same
client instance still issues a `POST /api/chat` request — the memoized
`lru_cache` result of `_check_chat_api_support` stays `True` and shadows the
cleared `_supports_chat_api` flag — before falling back to generate again. -/
theorem claim_C1_counterexample :
    (chat_completion cexC1Env
      (chat_completion cexC1Env (initialClientState true)
        [⟨"user".data, "Hello".data⟩] false).state
      [⟨"user".data, "Hello".data⟩] false).reqs =
    [Endpoint.postChat, Endpoint.postGenerate] := rfl

/-- C1 amended: in the state a 404 leaves behind (`_supports_chat_api` false,
memo still true), every subsequent non-streaming call with a 404-answering
chat endpoint issues exactly one chat-endpoint request followed by one
generate-endpoint request — no HEAD capability probe — and leaves the flag
false and the memo true. -/
theorem claim_C1_amended (env : CallEnv) (st : ClientState)
    (messages : List ChatMsg)
    (hmemo : st.chat_support_memo = some true)
    (hflag : st.supports_chat_api = some false)
    (hver : st.connection_verified = true)
    (h404 : env.chat_ns = .httpError 404)
    (hne : (filteredMessages messages).isEmpty = false) :
    (chat_completion env st messages false).reqs =
      [Endpoint.postChat, Endpoint.postGenerate] ∧
    (chat_completion env st messages false).state.supports_chat_api = some false ∧
    (chat_completion env st messages false).state.chat_support_memo = some true ∧
    Endpoint.headChat ∉ (chat_completion env st messages false).reqs := by
  have hflagKept := hflag
  have heq : verifyConnection env st = (true, st, []) := by
    unfold verifyConnection
    rw [hver]
    rfl
  rw [chat_completion_of_ok env st messages false st [] heq]
  rw [chatCompletionBody_check env st [] messages false true st []
    hne (check_memo env st true hmemo)]
  rw [if_pos rfl]
  rw [chatTryBlock_404 env st ([] ++ []) h404]
  obtain ⟨hreqs, hstate⟩ := generateSection_flag_false env
    { st with supports_chat_api := some false }
    ([] ++ [] ++ [Endpoint.postChat]) [] false rfl
  refine ⟨by rw [hreqs]; rfl, by rw [hstate], ?_, by rw [hreqs]; simp⟩
  rw [hstate]
  exact hmemo

/-- Witness for the amended C1 at a concrete post-404 state. -/
theorem claim_C1_amended_witness :
    (chat_completion ⟨true, some 405, .httpError 404, .httpError 404, .ok (.dict []), .ok []⟩
        ⟨some false, some true, true⟩ [⟨"user".data, "Hi".data⟩] false).reqs =
      [Endpoint.postChat, Endpoint.postGenerate] ∧
    (chat_completion ⟨true, some 405, .httpError 404, .httpError 404, .ok (.dict []), .ok []⟩
        ⟨some false, some true, true⟩ [⟨"user".data, "Hi".data⟩] false).state.supports_chat_api
      = some false ∧
    (chat_completion ⟨true, some 405, .httpError 404, .httpError 404, .ok (.dict []), .ok []⟩
        ⟨some false, some true, true⟩ [⟨"user".data, "Hi".data⟩] false).state.chat_support_memo
      = some true ∧
    Endpoint.headChat ∉ (chat_completion ⟨true, some 405, .httpError 404, .httpError 404, .ok (.dict []), .ok []⟩
        ⟨some false, some true, true⟩ [⟨"user".data, "Hi".data⟩] false).reqs :=
  claim_C1_amended _ _ _ rfl rfl rfl rfl (by decide)
